import Mathlib

set_option maxHeartbeats 1000000

/-!
Verification development for the voxtype status/control plane
(`src/main.rs` and `src/gui/status_bus.rs`).

The development shallowly embeds:
- the Waybar JSON status formatter (`WaybarStatus`,
  `format_state_json_with_level`) together with a model of `serde_json`
  string escaping and a strict JSON-syntax scanner used to state
  "the output parses as valid JSON";
- the remote-control dispatcher `send_record_command` as a function from an
  environment (pid file, liveness probe, state file, configured profiles) to
  the ordered list of effects it performs (file writes, file removals,
  stderr prints, signals) plus its exit disposition;
- the one-shot status snapshot logic and the follow-mode wake step of
  `run_status`;
- the status-bus iteration `run_bus` and its fan-out primitive `fan_out`.
-/

/- ===================== JSON number model ===================== -/

/-- Model of the integer part of a decimal float rendering: either the single
digit `0`, or a leading nonzero digit followed by further digits.  This is
exactly the shape of integer parts that `ryu` (used by `serde_json` for `f32`)
emits, and also exactly the JSON number grammar for integer parts. -/
inductive JsonUInt
  | zero
  | pos (first : Fin 9) (rest : List (Fin 10))
deriving DecidableEq

/-- Model of an `f32` value by its `serde_json` rendering: a non-finite float
is serialized as `null`; a finite float is serialized by `ryu` as an optional
minus sign, an integer part and fraction digits (an empty fraction is rendered
as `.0`, as `ryu` always emits a fraction).  `ryu` may also use exponent
notation for very large/small magnitudes; that alternative rendering is also a
valid JSON number token and is not needed by any claim, so it is omitted. -/
inductive F32
  | nonfinite
  | finite (neg : Bool) (ip : JsonUInt) (frac : List (Fin 10))
deriving DecidableEq

/-- Character for a decimal digit. -/
def digitChar (d : Fin 10) : Char := Char.ofNat (48 + d.val)

/-- Character for a nonzero leading decimal digit (1–9). -/
def posDigitChar (f : Fin 9) : Char := Char.ofNat (49 + f.val)

/-- Render the integer part of a JSON number. -/
def renderUInt : JsonUInt → List Char
  | .zero => ['0']
  | .pos f r => posDigitChar f :: r.map digitChar

/-- Render an `F32` the way `serde_json` serializes it. -/
def renderF32 : F32 → List Char
  | .nonfinite => ['n', 'u', 'l', 'l']
  | .finite neg ip frac =>
      (if neg then ['-'] else []) ++ renderUInt ip
        ++ '.' :: (if frac.isEmpty then ['0'] else frac.map digitChar)

/- ===================== serde_json string escaping ===================== -/

/-- Lowercase hex digit character for a nibble, as used by `serde_json` in
`\u00XX` escapes. -/
def hexDigitChar (n : Nat) : Char :=
  if n < 10 then Char.ofNat (48 + n) else Char.ofNat (87 + n)

/-- Escape one character of a JSON string exactly as `serde_json` does:
`"` and `\` get a backslash escape, the control characters BS, TAB, LF, FF,
CR get their short escapes, any other control character below 0x20 becomes
`\u00XX` with lowercase hex, and every other character (including all
non-ASCII) is emitted verbatim. -/
def escChar (c : Char) : List Char :=
  if c = '"' then ['\\', '"']
  else if c = '\\' then ['\\', '\\']
  else if c = '\x08' then ['\\', 'b']
  else if c = '\t' then ['\\', 't']
  else if c = '\n' then ['\\', 'n']
  else if c = '\x0c' then ['\\', 'f']
  else if c = '\r' then ['\\', 'r']
  else if c.toNat < 32 then
    ['\\', 'u', '0', '0', hexDigitChar (c.toNat / 16), hexDigitChar (c.toNat % 16)]
  else [c]

/-- Escape every character of a string body. -/
def escapeList : List Char → List Char
  | [] => []
  | c :: cs => escChar c ++ escapeList cs

/-- Serialize a string as a JSON string literal (quotes plus escaped body). -/
def serStr (s : String) : List Char := '"' :: (escapeList s.data ++ ['"'])

/- ===================== JSON object serialization ===================== -/

/-- JSON values that occur in a `WaybarStatus` record: strings and numbers. -/
inductive JVal
  | str (s : String)
  | num (f : F32)
deriving DecidableEq

/-- Serialize one member value. -/
def serJVal : JVal → List Char
  | .str s => serStr s
  | .num f => renderF32 f

/-- Serialize one `"key":value` member. -/
def serMember (kv : String × JVal) : List Char :=
  serStr kv.1 ++ ':' :: serJVal kv.2

/-- Serialize the comma-separated member list of an object. -/
def serFields : List (String × JVal) → List Char
  | [] => []
  | [kv] => serMember kv
  | kv :: kvs => serMember kv ++ ',' :: serFields kvs

/-- Serialize an object as `serde_json` does for a struct: `\x7b` members
`\x7d` with no whitespace, members in field-declaration order. -/
def serObj (fs : List (String × JVal)) : List Char :=
  '{' :: (serFields fs ++ ['}'])

/- ===================== strict JSON syntax scanner ===================== -/

/-- Hexadecimal digit test for `\uXXXX` escapes. -/
def hexDig (c : Char) : Bool :=
  c.isDigit || ('a' ≤ c && c ≤ 'f') || ('A' ≤ c && c ≤ 'F')

mutual

/-- Scan the body of a JSON string literal (after the opening quote) per the
RFC 8259 grammar: unescaped characters must be ≥ 0x20, escapes are one of
`\" \\ \/ \b \f \n \r \t` or `\uXXXX`.  Returns the input remaining after the
closing quote, or `none` if the body is ill-formed. -/
def scanStringBody : List Char → Option (List Char)
  | [] => none
  | c :: r =>
    if c = '"' then some r
    else if c = '\\' then scanEscape r
    else if c.toNat < 32 then none
    else scanStringBody r
termination_by l => l.length
decreasing_by all_goals (simp_wf; try omega)

/-- Scan what follows a backslash inside a JSON string literal. -/
def scanEscape : List Char → Option (List Char)
  | [] => none
  | e :: r2 =>
    if e = '"' || e = '\\' || e = '/' || e = 'b' || e = 'f'
        || e = 'n' || e = 'r' || e = 't' then
      scanStringBody r2
    else if e = 'u' then scanHex4 r2
    else none
termination_by l => l.length
decreasing_by all_goals (simp_wf; try omega)

/-- Scan the four hex digits of a `\uXXXX` escape, then the rest of the
string body. -/
def scanHex4 : List Char → Option (List Char)
  | h1 :: h2 :: h3 :: h4 :: r3 =>
    if hexDig h1 && hexDig h2 && hexDig h3 && hexDig h4 then scanStringBody r3
    else none
  | _ => none
termination_by l => l.length
decreasing_by all_goals (simp_wf; try omega)

end

/-- Consume a (possibly empty) run of decimal digits. -/
def scanDigits : List Char → List Char
  | [] => []
  | c :: r => if c.isDigit then scanDigits r else c :: r

/-- Consume one or more decimal digits. -/
def scanDigits1 : List Char → Option (List Char)
  | [] => none
  | c :: r => if c.isDigit then some (scanDigits r) else none

/-- Scan the integer part of a JSON number: `0` alone, or a nonzero digit
followed by more digits (RFC 8259 forbids leading zeros). -/
def scanIntPart : List Char → Option (List Char)
  | [] => none
  | c :: r =>
    if c = '0' then some r
    else if c.isDigit then some (scanDigits r)
    else none

/-- Scan an optional fraction part `.digits`. -/
def scanFracOpt : List Char → Option (List Char)
  | [] => some []
  | c :: r => if c = '.' then scanDigits1 r else some (c :: r)

/-- Scan an optional exponent part `[eE][+-]?digits`. -/
def scanExpOpt : List Char → Option (List Char)
  | [] => some []
  | c :: r =>
    if c = 'e' || c = 'E' then
      match r with
      | [] => none
      | s :: r2 => if s = '+' || s = '-' then scanDigits1 r2 else scanDigits1 r
    else some (c :: r)

/-- Scan a JSON number token. -/
def scanNumber (l : List Char) : Option (List Char) :=
  let l1 := match l with
    | c :: r => if c = '-' then r else c :: r
    | [] => []
  (scanIntPart l1).bind fun r1 => (scanFracOpt r1).bind scanExpOpt

/-- Scan a primitive JSON value: string, `null`, `true`, `false`, or number. -/
def scanPrim (l : List Char) : Option (List Char) :=
  match l with
  | [] => none
  | c :: r =>
    if c = '"' then scanStringBody r
    else if l.take 4 = ['n', 'u', 'l', 'l'] then some (l.drop 4)
    else if l.take 4 = ['t', 'r', 'u', 'e'] then some (l.drop 4)
    else if l.take 5 = ['f', 'a', 'l', 's', 'e'] then some (l.drop 5)
    else scanNumber l

/-- Scan the `:value` part of an object member. -/
def scanColonValue : List Char → Option (List Char)
  | [] => none
  | c :: r => if c = ':' then scanPrim r else none

/-- Scan one `"key":primitive-value` object member. -/
def scanMember : List Char → Option (List Char)
  | [] => none
  | c :: r =>
    if c = '"' then (scanStringBody r).bind scanColonValue
    else none

mutual

/-- Scan the nonempty member list of an object, up to and including the
closing brace.  The fuel argument bounds the number of members. -/
def scanMembers : Nat → List Char → Option (List Char)
  | 0, _ => none
  | fuel + 1, l => (scanMember l).bind (scanMemberSep fuel)
termination_by fuel _ => 2 * fuel
decreasing_by all_goals (simp_wf; try omega)

/-- Scan the separator after an object member: a comma followed by more
members, or the closing brace. -/
def scanMemberSep : Nat → List Char → Option (List Char)
  | _, [] => none
  | fuel, c :: r2 =>
    if c = ',' then scanMembers fuel r2
    else if c = '}' then some r2
    else none
termination_by fuel _ => 2 * fuel + 1
decreasing_by all_goals (simp_wf; try omega)

end

/-- Scan a JSON text: an object of primitive values, or a primitive value.
This scanner accepts a strict subset of RFC 8259 JSON texts (no insignificant
whitespace, no nested containers), which suffices because the status formatter
only ever emits single-level objects of strings and numbers; acceptance by
this scanner therefore implies JSON validity. -/
def scanTop : List Char → Option (List Char)
  | [] => none
  | c :: r =>
    if c = '{' then
      match r with
      | [] => none
      | c2 :: r2 => if c2 = '}' then some r2 else scanMembers (c2 :: r2).length (c2 :: r2)
    else scanPrim (c :: r)

/-- Accepts a string iff it is a complete JSON text of the scanner's
fragment (hence a valid RFC 8259 JSON text). -/
def jsonValid (s : String) : Bool := scanTop s.data = some []

/- ===================== Waybar status formatter model ===================== -/

/-- Resolved icon strings for the four known states (`config::ResolvedIcons`). -/
structure ResolvedIcons where
  idle : String
  recording : String
  transcribing : String
  stopped : String
deriving DecidableEq

/-- Extended status info gathered for `--extended` (`ExtendedStatusInfo`). -/
structure ExtendedStatusInfo where
  model : String
  device : String
  backend : String
deriving DecidableEq

/-- Mirror of the Rust struct `WaybarStatus`; `class` is a Lean keyword, so
that field is named `cls` here.  `serde_json` serializes the fields in
declaration order and skips the `Option` fields when `None`
(`skip_serializing_if = "Option::is_none"`). -/
structure WaybarStatus where
  text : String
  alt : String
  cls : String
  tooltip : String
  level : Option F32
  model : Option String
  device : Option String
  backend : Option String
deriving DecidableEq

/-- The member list `serde_json` emits for a `WaybarStatus`: the four base
fields in declaration order followed by each `Option` field that is present. -/
def waybarFields (w : WaybarStatus) : List (String × JVal) :=
  [("text", .str w.text), ("alt", .str w.alt), ("class", .str w.cls),
   ("tooltip", .str w.tooltip)]
  ++ (match w.level with | some f => [("level", .num f)] | none => [])
  ++ (match w.model with | some m => [("model", .str m)] | none => [])
  ++ (match w.device with | some d => [("device", .str d)] | none => [])
  ++ (match w.backend with | some b => [("backend", .str b)] | none => [])

/-- Model of `serde_json::to_string(&status)`.  For this struct every field
serializer is infallible (strings and an optional float), so serialization
cannot fail; this is modeled by always returning `some`. -/
def serdeJsonToString (w : WaybarStatus) : Option String :=
  some (String.mk (serObj (waybarFields w)))

/-- The `(text, base_tooltip)` pair chosen by the `match state` at the top of
`format_state_json_with_level`: known states pick their icon and tooltip,
anything else falls back to the idle icon and a generic tooltip. -/
def stateTextTooltip (state : String) (icons : ResolvedIcons) : String × String :=
  if state = "recording" then (icons.recording, "Recording...")
  else if state = "transcribing" then (icons.transcribing, "Transcribing...")
  else if state = "idle" then (icons.idle, "Voxtype ready - hold hotkey to record")
  else if state = "stopped" then (icons.stopped, "Voxtype not running")
  else (icons.idle, "Unknown state")

/-- Build the `WaybarStatus` value exactly as `format_state_json_with_level`
does: `alt` and `class` echo the state verbatim, `level` is kept only in the
`recording` state, and extended info adds the three extra fields and extends
the tooltip. -/
def buildWaybarStatus (state : String) (icons : ResolvedIcons)
    (extended : Option ExtendedStatusInfo) (level : Option F32) : WaybarStatus :=
  let tt := stateTextTooltip state icons
  let effectiveLevel := if state = "recording" then level else none
  match extended with
  | some info =>
      { text := tt.1, alt := state, cls := state,
        tooltip := tt.2 ++ "\nModel: " ++ info.model ++ "\nDevice: "
          ++ info.device ++ "\nBackend: " ++ info.backend,
        level := effectiveLevel,
        model := some info.model, device := some info.device,
        backend := some info.backend }
  | none =>
      { text := tt.1, alt := state, cls := state, tooltip := tt.2,
        level := effectiveLevel,
        model := none, device := none, backend := none }

/-- Mirror of `format_state_json_with_level`: build the status record,
serialize it with the structured encoder, and fall back to the inline literal
(with the tooltip replaced by an error note) if serialization failed. -/
def format_state_json_with_level (state : String) (icons : ResolvedIcons)
    (extended : Option ExtendedStatusInfo) (level : Option F32) : String :=
  match serdeJsonToString (buildWaybarStatus state icons extended level) with
  | some s => s
  | none =>
      "\x7b\"text\":\"\",\"alt\":\"" ++ state ++ "\",\"class\":\"" ++ state
        ++ "\",\"tooltip\":\"Serialization error\"\x7d"

/-- Mirror of `format_state_json` (no level). -/
def format_state_json (state : String) (icons : ResolvedIcons)
    (extended : Option ExtendedStatusInfo) : String :=
  format_state_json_with_level state icons extended none

/- ===================== remote-control dispatcher model ===================== -/

/-- The two control signals the dispatcher can deliver. -/
inductive Sig
  | sigusr1
  | sigusr2
deriving DecidableEq

/-- Observable effects of one dispatcher invocation, in program order.
File names are relative to the per-user runtime directory. -/
inductive Effect
  | writeFile (name content : String)
  | removeFile (name : String)
  | printErr (s : String)
  | signal (s : Sig)
deriving DecidableEq

/-- Exit disposition of one dispatcher invocation: normal return,
`std::process::exit(1)`, or an `anyhow` error return. -/
inductive DispatchExit
  | ok
  | exit1
  | err (msg : String)
deriving DecidableEq

/-- Modelled from the spec: the output-mode override values of the record
command surface `record ... [--output-mode M]` (the `OutputModeOverride` enum
lives in the library crate, which is not under `src/`).  `Type` is a Lean
keyword, so that variant is named `typ`. -/
inductive OutputModeOverride
  | typ
  | clipboard
  | paste
  | file
deriving DecidableEq

/-- Modelled from the spec: the optional overrides carried by the
`start`/`stop`/`toggle` variants of `RecordAction`
(`record <start|stop|toggle> [--output-mode M] [--model NAME]
[--profile NAME]`); `filePath` is the optional explicit path of
`--output-mode file:/path`. -/
structure RecordOpts where
  outputMode : Option OutputModeOverride
  filePath : Option String
  model : Option String
  profile : Option String
deriving DecidableEq

/-- Modelled from the spec: the record command surface
`record <start|stop|toggle|cancel>`. -/
inductive RecordAction
  | start (opts : RecordOpts)
  | stop (opts : RecordOpts)
  | toggle (opts : RecordOpts)
  | cancel
deriving DecidableEq

/-- Override options of an action (`cancel` carries none). -/
def RecordAction.optsD : RecordAction → RecordOpts
  | .start o => o
  | .stop o => o
  | .toggle o => o
  | .cancel => ⟨none, none, none, none⟩

/-- Model of `str::trim`: drop Unicode whitespace from both ends.  (Lean's
`Char.isWhitespace` covers the whitespace characters that occur in practice
in these files.)  Implemented over the character list so that it reduces in
the kernel. -/
def trimChars (l : List Char) : List Char :=
  ((l.dropWhile Char.isWhitespace).reverse.dropWhile Char.isWhitespace).reverse

/-- String version of `trimChars`. -/
def strTrim (s : String) : String := String.mk (trimChars s.data)

/-- Numeric value of a decimal digit character. -/
def digitVal (c : Char) : Option Nat :=
  if c.isDigit then some (c.toNat - 48) else none

/-- Accumulate decimal digits into a natural number; fails on a non-digit. -/
def parseDigitsAux : List Char → Nat → Option Nat
  | [], acc => some acc
  | c :: r, acc =>
    match digitVal c with
    | some d => parseDigitsAux r (acc * 10 + d)
    | none => none

/-- Parse a nonempty run of decimal digits. -/
def parseNatDigits : List Char → Option Nat
  | [] => none
  | c :: r => parseDigitsAux (c :: r) 0

/-- Model of `str::parse::<i32>`: an optional sign followed by decimal
digits, rejecting values outside the `i32` range. -/
def parseI32 (s : String) : Option Int :=
  match s.data with
  | [] => none
  | c :: r =>
    if c = '+' then
      (parseNatDigits r).bind fun n =>
        if n ≤ 2147483647 then some ((n : Int)) else none
    else if c = '-' then
      (parseNatDigits r).bind fun n =>
        if n ≤ 2147483648 then some (-(n : Int)) else none
    else
      (parseNatDigits (c :: r)).bind fun n =>
        if n ≤ 2147483647 then some ((n : Int)) else none

/-- Environment a dispatcher invocation observes: the pid-lock file content
(if the file exists), the OS liveness probe (`kill(pid, None)` succeeding),
the persisted state-file content (if readable), whether a state-file path is
configured, and the configured profile names. -/
structure DispatchEnv where
  pidFile : Option String
  pidLive : Int → Bool
  stateFile : Option String
  stateFileConfigured : Bool
  profiles : List String

/-- The string written to the `output_mode_override` mailbox, matching the
`mode_str` computation (file mode may carry an explicit path). -/
def outputModeStr (m : OutputModeOverride) (filePath : Option String) : String :=
  match m with
  | .typ => "type"
  | .clipboard => "clipboard"
  | .paste => "paste"
  | .file =>
    match filePath with
    | some path => if path = "" then "file" else "file:" ++ path
    | none => "file"

/-- Mailbox write for a requested output-mode override, if any. -/
def outputModeWrites (opts : RecordOpts) : List Effect :=
  match opts.outputMode with
  | some m => [.writeFile "output_mode_override" (outputModeStr m opts.filePath)]
  | none => []

/-- Mailbox write for a requested model override, if any. -/
def modelWrites (opts : RecordOpts) : List Effect :=
  match opts.model with
  | some m => [.writeFile "model_override" m]
  | none => []

/-- Error text printed when the requested profile is not configured: guidance
to add a profile when none exist, otherwise the list of configured names. -/
def profileErrPrints (profiles : List String) (p : String) : List Effect :=
  if profiles.isEmpty then
    [.printErr ("Error: Profile \x27" ++ p ++ "\x27 not found."),
     .printErr "",
     .printErr "No profiles are configured. Add profiles to your config.toml:",
     .printErr "",
     .printErr ("  [profiles." ++ p ++ "]"),
     .printErr "  post_process_command = \"your-command-here\""]
  else
    [.printErr ("Error: Profile \x27" ++ p ++ "\x27 not found."),
     .printErr "",
     .printErr ("Available profiles: " ++ String.intercalate ", " profiles)]

/-- Remediation text printed when toggle is requested without a configured
state file. -/
def toggleNoStatePrints : List Effect :=
  [.printErr "Error: Cannot toggle recording without state_file configured.",
   .printErr "",
   .printErr "Add to your config.toml:",
   .printErr "  state_file = \"auto\"",
   .printErr "",
   .printErr "Or use explicit start/stop commands:",
   .printErr "  voxtype record start",
   .printErr "  voxtype record stop"]

/-- The signal-selection and delivery phase of `send_record_command`, run
after the mailbox writes: `start` sends SIGUSR1, `stop` sends SIGUSR2, and
`toggle` reads the persisted state (defaulting to `idle` if unreadable) and
sends SIGUSR2 exactly when the trimmed content is `recording`.  `acc` is the
list of effects already performed. -/
def signalPhase (env : DispatchEnv) (action : RecordAction)
    (acc : List Effect) : List Effect × DispatchExit :=
  match action with
  | .start _ => (acc ++ [.signal .sigusr1], .ok)
  | .stop _ => (acc ++ [.signal .sigusr2], .ok)
  | .toggle _ =>
    if env.stateFileConfigured then
      let currentState := env.stateFile.getD "idle"
      let sig := if strTrim currentState = "recording" then Sig.sigusr2 else Sig.sigusr1
      (acc ++ [.signal sig], .ok)
    else
      (acc ++ toggleNoStatePrints, .exit1)
  | .cancel => (acc, .ok)

/-- Mirror of `send_record_command` as a function from the observed
environment and action to the ordered effect list and exit disposition.
File writes and the final `kill` are modeled as succeeding (their error
branches only propagate an `anyhow` error and perform no further effects,
which no claim depends on). -/
def send_record_command (env : DispatchEnv) (action : RecordAction) :
    List Effect × DispatchExit :=
  match env.pidFile with
  | none =>
      ([.printErr "Error: Voxtype daemon is not running.",
        .printErr "Start it with: voxtype daemon"], .exit1)
  | some pidStr =>
    match parseI32 (strTrim pidStr) with
    | none => ([], .err "Invalid PID in file")
    | some pid =>
      if env.pidLive pid then
        match action with
        | .cancel => ([.writeFile "cancel" "cancel"], .ok)
        | _ =>
          let opts := action.optsD
          let acc := outputModeWrites opts ++ modelWrites opts
          match opts.profile with
          | some p =>
            if env.profiles.contains p then
              signalPhase env action (acc ++ [.writeFile "profile_override" p])
            else
              (acc ++ profileErrPrints env.profiles p, .exit1)
          | none => signalPhase env action acc
      else
        ([.removeFile "pid",
          .printErr "Error: Voxtype daemon is not running (stale PID file removed).",
          .printErr "Start it with: voxtype daemon"], .exit1)

/- ===================== status reader model ===================== -/

/-- The state string reported by the one-shot snapshot of `run_status` (and by
the initial snapshot of follow mode, which uses the identical expression):
`stopped` if the liveness check fails, otherwise the state-file content with
`stopped` substituted when the read fails, the result trimmed. -/
def status_snapshot_state (live : Bool) (fileRead : Option String) : String :=
  strTrim (if live = false then "stopped" else fileRead.getD "stopped")

/-- Environment one wake of the follow-mode loop observes: the state-file
read result, the (already validated) level read from `read_audio_level`,
whether the state-file path exists, and the daemon liveness probe. -/
structure WakeEnv where
  stateRead : Option String
  levelRead : Option F32
  pathExists : Bool
  live : Bool
deriving DecidableEq

/-- Mutable state of the follow-mode loop: the last reported state and the
last reported audio level. -/
structure FollowSt where
  lastState : String
  lastLevel : Option F32
deriving DecidableEq

/-- The possible outcomes of `rx.recv_timeout` in the follow loop: a watch
event, a watch error, a timeout, or channel disconnection. -/
inductive WakeKind
  | event
  | watchErr
  | timeout
  | disconnected
deriving DecidableEq

/-- Whether the loop continues or breaks after a wake. -/
inductive LoopCtl
  | cont
  | stop
deriving DecidableEq

/-- One iteration of the follow-mode loop of `run_status`, as a function of
the wake kind and observed environment.  Emissions are `(state, level)`
pairs, one per printed status record.

- On a watch event the state file is re-read; if readable, the trimmed state
  and the freshly read level are compared against the last reported pair and
  a record is emitted only when either changed.  Liveness is not consulted.
- On a watch error nothing happens.
- On a timeout, while the last reported state is `recording` and the format
  is json, the level file is polled and a record emitted if the level
  changed; then, if the state-file path is gone or the liveness probe fails,
  and the last reported state is not already `stopped`, a single synthetic
  `stopped` record is emitted.  The state file itself is not re-read.
- On disconnection the loop breaks. -/
def follow_step (isJson : Bool) (env : WakeEnv) (st : FollowSt) (w : WakeKind) :
    List (String × Option F32) × FollowSt × LoopCtl :=
  match w with
  | .event =>
    match env.stateRead with
    | some s =>
      let newState := strTrim s
      let level := env.levelRead
      if newState ≠ st.lastState ∨ level ≠ st.lastLevel then
        ([(newState, level)], ⟨newState, level⟩, .cont)
      else ([], st, .cont)
    | none => ([], st, .cont)
  | .watchErr => ([], st, .cont)
  | .timeout =>
    let pollOut :=
      if st.lastState = "recording" ∧ isJson = true then
        if env.levelRead ≠ st.lastLevel then
          ([(st.lastState, env.levelRead)], { st with lastLevel := env.levelRead })
        else ([], st)
      else ([], st)
    if (env.pathExists = false ∨ env.live = false) ∧ pollOut.2.lastState ≠ "stopped" then
      (pollOut.1 ++ [("stopped", none)], ⟨"stopped", none⟩, .cont)
    else (pollOut.1, pollOut.2, .cont)
  | .disconnected => ([], st, .stop)

/- ===================== status bus model ===================== -/

/-- The synthetic line the bus injects when the subprocess terminates. -/
def stoppedLine : String := "\x7b\"class\":\"stopped\"\x7d"

/-- Observable events of one bus iteration: a line delivered to a consumer
channel, or a sleep of the given number of seconds. -/
inductive BusEvent
  | deliver (consumer : Nat) (line : String)
  | sleepSecs (n : Nat)
deriving DecidableEq

/-- Whether the bus loops again after an iteration or shuts down. -/
inductive BusOutcome
  | continueLoop
  | shutdown
deriving DecidableEq

/-- Deliveries performed by the `for tx in senders` loop of `fan_out`:
one copy of the line to each sender whose receiver is alive, in order.
`i` is the index of the first sender in `alive`. -/
def fanOutDeliver (i : Nat) (alive : List Bool) (line : String) : List BusEvent :=
  match alive with
  | [] => []
  | true :: rest => .deliver i line :: fanOutDeliver (i + 1) rest line
  | false :: rest => fanOutDeliver (i + 1) rest line

/-- Mirror of `fan_out`: send the line to every sender, reporting the
deliveries that succeeded and whether any receiver was alive. -/
def fan_out (alive : List Bool) (line : String) : List BusEvent × Bool :=
  (fanOutDeliver 0 alive line, alive.any (fun a => a))

/-- What the subprocess spawn of one bus iteration yields: a spawn failure,
a child without a stdout handle, or a child whose stdout stream produces the
given lines before terminating (by EOF or read error — both leave the line
loop the same way). -/
inductive SpawnOutcome
  | spawnFail
  | noStdout
  | streamed (ls : List String)

/-- The line loop of `run_bus`: fan each line out to the consumers whose
liveness at the k-th fan-out call is `aliveAt k`; stop early (returning
`false`) when a fan-out finds all consumers disconnected. -/
def busProcessLines (aliveAt : Nat → List Bool) : Nat → List String →
    List BusEvent × Bool
  | _, [] => ([], true)
  | k, l :: ls =>
    let out := fan_out (aliveAt k) l
    if out.2 then
      let rest := busProcessLines aliveAt (k + 1) ls
      (out.1 ++ rest.1, rest.2)
    else (out.1, false)

/-- One iteration of the `loop` in `run_bus`: on spawn failure or missing
stdout, sleep 5 s and loop; otherwise fan out each line, and if all consumers
disconnect mid-stream, shut down.  When the stream ends, fan out one
synthetic `stopped` line; if some consumer is still alive, sleep 2 s and
loop, else shut down. -/
def run_bus_iteration (spawn : SpawnOutcome) (aliveAt : Nat → List Bool) :
    List BusEvent × BusOutcome :=
  match spawn with
  | .spawnFail => ([.sleepSecs 5], .continueLoop)
  | .noStdout => ([.sleepSecs 5], .continueLoop)
  | .streamed ls =>
    let out := busProcessLines aliveAt 0 ls
    if out.2 then
      let stopOut := fan_out (aliveAt ls.length) stoppedLine
      if stopOut.2 then
        (out.1 ++ stopOut.1 ++ [.sleepSecs 2], .continueLoop)
      else
        (out.1 ++ stopOut.1, .shutdown)
    else (out.1, .shutdown)

/- ===================== scanner-accepts-serializer lemmas ===================== -/

/-- Every nibble renders to a hex digit. -/
theorem hexDig_hexDigitChar : ∀ n : Fin 16, hexDig (hexDigitChar n.val) = true := by
  decide

/-- Every decimal digit renders to a digit character. -/
theorem digitChar_isDigit : ∀ d : Fin 10, (digitChar d).isDigit = true := by
  decide

/-- Scanning a `\u00XX` escape with hex digits succeeds and continues. -/
theorem scanBody_u_escape (h1 h2 : Char) (t : List Char)
    (e1 : hexDig h1 = true) (e2 : hexDig h2 = true) :
    scanStringBody ('\\' :: 'u' :: '0' :: '0' :: h1 :: h2 :: t) = scanStringBody t := by
  have h0 : hexDig '0' = true := by decide
  rw [scanStringBody, scanEscape]
  simp [scanHex4, e1, e2, h0]

/-- Scanning the `serde_json` escape of one character consumes it and
continues with the rest of the body. -/
theorem scanBody_escChar (c : Char) (t : List Char) :
    scanStringBody (escChar c ++ t) = scanStringBody t := by
  by_cases h1 : c = '"'
  · subst h1
    rw [show escChar '"' ++ t = '\\' :: '"' :: t by rfl, scanStringBody, scanEscape]
    simp
  by_cases h2 : c = '\\'
  · subst h2
    rw [show escChar '\\' ++ t = '\\' :: '\\' :: t by rfl, scanStringBody, scanEscape]
    simp
  by_cases h3 : c = '\x08'
  · subst h3
    rw [show escChar '\x08' ++ t = '\\' :: 'b' :: t by rfl, scanStringBody, scanEscape]
    simp
  by_cases h4 : c = '\t'
  · subst h4
    rw [show escChar '\t' ++ t = '\\' :: 't' :: t by rfl, scanStringBody, scanEscape]
    simp
  by_cases h5 : c = '\n'
  · subst h5
    rw [show escChar '\n' ++ t = '\\' :: 'n' :: t by rfl, scanStringBody, scanEscape]
    simp
  by_cases h6 : c = '\x0c'
  · subst h6
    rw [show escChar '\x0c' ++ t = '\\' :: 'f' :: t by rfl, scanStringBody, scanEscape]
    simp
  by_cases h7 : c = '\r'
  · subst h7
    rw [show escChar '\r' ++ t = '\\' :: 'r' :: t by rfl, scanStringBody, scanEscape]
    simp
  by_cases h8 : c.toNat < 32
  · have hesc : escChar c ++ t
        = '\\' :: 'u' :: '0' :: '0'
          :: hexDigitChar (c.toNat / 16) :: hexDigitChar (c.toNat % 16) :: t := by
      simp [escChar, h1, h2, h3, h4, h5, h6, h7, h8]
    rw [hesc]
    exact scanBody_u_escape _ _ _
      (hexDig_hexDigitChar ⟨c.toNat / 16, by omega⟩)
      (hexDig_hexDigitChar ⟨c.toNat % 16, by omega⟩)
  · have hesc : escChar c ++ t = c :: t := by
      simp [escChar, h1, h2, h3, h4, h5, h6, h7, h8]
    rw [hesc, scanStringBody]
    simp [h1, h2, h8]

/-- Scanning an escaped string body followed by the closing quote succeeds
and returns the remainder. -/
theorem scanBody_escapeList (l : List Char) (rest : List Char) :
    scanStringBody (escapeList l ++ '"' :: rest) = some rest := by
  induction l with
  | nil =>
    rw [escapeList, List.nil_append, scanStringBody]
    simp
  | cons c cs ih => rw [escapeList, List.append_assoc, scanBody_escChar, ih]

/-- Scanning a serialized string literal succeeds and returns the remainder. -/
theorem scanPrim_serStr (s : String) (rest : List Char) :
    scanPrim (serStr s ++ rest) = some rest := by
  have h : serStr s ++ rest = '"' :: (escapeList s.data ++ '"' :: rest) := by
    simp [serStr]
  rw [h, scanPrim]
  simp [scanBody_escapeList]

/-- Head of the remaining input is not a digit (or input is empty). -/
def notDigitHead : List Char → Bool
  | [] => true
  | c :: _ => !c.isDigit

/-- The remaining input cannot extend a number token: its head (if any) is
not a digit, a decimal point, or an exponent marker. -/
def numBoundary : List Char → Bool
  | [] => true
  | c :: _ => !c.isDigit && c != '.' && c != 'e' && c != 'E'

/-- A number boundary is in particular not a digit. -/
theorem numBoundary_notDigit (t : List Char) (h : numBoundary t = true) :
    notDigitHead t = true := by
  cases t with
  | nil => rfl
  | cons c r =>
    rw [numBoundary] at h
    rw [notDigitHead]
    simp only [Bool.and_eq_true] at h
    exact h.1.1.1

/-- Scanning digits stops immediately at a non-digit head. -/
theorem scanDigits_notDigit (t : List Char) (h : notDigitHead t = true) :
    scanDigits t = t := by
  cases t with
  | nil => rfl
  | cons c r =>
    rw [notDigitHead] at h
    simp only [Bool.not_eq_true'] at h
    rw [scanDigits]
    simp [h]

/-- Scanning digits consumes a rendered digit run. -/
theorem scanDigits_digits (ds : List (Fin 10)) (t : List Char) :
    scanDigits (ds.map digitChar ++ t) = scanDigits t := by
  induction ds with
  | nil => simp
  | cons d ds ih =>
    rw [List.map_cons, List.cons_append, scanDigits]
    simp [digitChar_isDigit d, ih]

/-- Scanning one-or-more digits accepts a nonempty rendered digit run and
stops at a non-digit. -/
theorem scanDigits1_digits (d : Fin 10) (ds : List (Fin 10)) (t : List Char)
    (h : notDigitHead t = true) :
    scanDigits1 (digitChar d :: (ds.map digitChar ++ t)) = some t := by
  rw [scanDigits1]
  simp [digitChar_isDigit d, scanDigits_digits, scanDigits_notDigit t h]

/-- Leading digits 1–9 are digits. -/
theorem posDigitChar_isDigit : ∀ f : Fin 9, (posDigitChar f).isDigit = true := by
  decide

/-- Leading digits 1–9 are not the zero digit. -/
theorem posDigitChar_ne_zero : ∀ f : Fin 9, ¬ posDigitChar f = '0' := by
  decide

/-- Scanning the integer part accepts any rendered integer part and stops at
a non-digit. -/
theorem scanIntPart_renderUInt (ip : JsonUInt) (t : List Char)
    (h : notDigitHead t = true) :
    scanIntPart (renderUInt ip ++ t) = some t := by
  cases ip with
  | zero =>
    rw [renderUInt, List.cons_append, List.nil_append, scanIntPart]
    simp
  | pos f r =>
    rw [renderUInt, List.cons_append, scanIntPart]
    simp [posDigitChar_ne_zero f, posDigitChar_isDigit f, scanDigits_digits,
      scanDigits_notDigit t h]

/-- Scanning the optional exponent stops at a number boundary. -/
theorem scanExpOpt_boundary (t : List Char) (h : numBoundary t = true) :
    scanExpOpt t = some t := by
  cases t with
  | nil => rfl
  | cons c r =>
    rw [numBoundary] at h
    simp only [Bool.and_eq_true, bne_iff_ne, ne_eq] at h
    obtain ⟨⟨⟨hd, hdot⟩, he⟩, hE⟩ := h
    rw [scanExpOpt.eq_def]
    simp [he, hE]

/-- Leading digits 1–9 are not a minus sign. -/
theorem posDigitChar_ne_minus : ∀ f : Fin 9, ¬ posDigitChar f = '-' := by
  decide

/-- Scanning a number accepts the rendering of any finite `F32` followed by
a number boundary. -/
theorem scanNumber_renderF32 (neg : Bool) (ip : JsonUInt) (frac : List (Fin 10))
    (t : List Char) (h : numBoundary t = true) :
    scanNumber (renderF32 (.finite neg ip frac) ++ t) = some t := by
  have hnd : notDigitHead t = true := numBoundary_notDigit t h
  have hfrac : scanDigits1 ((if frac = [] then ['0'] else frac.map digitChar) ++ t)
      = some t := by
    cases frac with
    | nil =>
      show scanDigits1 (['0'] ++ t) = some t
      rw [List.cons_append, List.nil_append, scanDigits1]
      simp [scanDigits_notDigit t hnd]
    | cons d ds =>
      show scanDigits1 ((d :: ds).map digitChar ++ t) = some t
      rw [List.map_cons, List.cons_append]
      exact scanDigits1_digits d ds t hnd
  have htail : scanFracOpt ('.' :: ((if frac = [] then ['0'] else frac.map digitChar) ++ t))
      = some t := by
    rw [scanFracOpt]
    simp [hfrac]
  have hmid : scanIntPart (renderUInt ip
        ++ '.' :: ((if frac = [] then ['0'] else frac.map digitChar) ++ t))
      = some ('.' :: ((if frac = [] then ['0'] else frac.map digitChar) ++ t)) := by
    apply scanIntPart_renderUInt
    rw [notDigitHead]
    decide
  cases neg with
  | true =>
    have hsh : renderF32 (.finite true ip frac) ++ t
        = '-' :: (renderUInt ip
            ++ '.' :: ((if frac = [] then ['0'] else frac.map digitChar) ++ t)) := by
      rw [renderF32]
      simp
    rw [hsh, scanNumber]
    simp [hmid, htail, scanExpOpt_boundary t h]
  | false =>
    have hsh : renderF32 (.finite false ip frac) ++ t
        = renderUInt ip
            ++ '.' :: ((if frac = [] then ['0'] else frac.map digitChar) ++ t) := by
      rw [renderF32]
      simp
    rw [hsh]
    cases hre : renderUInt ip ++ '.' :: ((if frac = [] then ['0']
        else frac.map digitChar) ++ t) with
    | nil =>
      exfalso
      cases ip with
      | zero => simp [renderUInt] at hre
      | pos f rr => simp [renderUInt] at hre
    | cons c r =>
      have hcm : ¬ c = '-' := by
        cases ip with
        | zero =>
          rw [renderUInt, List.cons_append, List.nil_append] at hre
          injection hre with h1 _
          rw [← h1]
          decide
        | pos f rr =>
          rw [renderUInt, List.cons_append] at hre
          injection hre with h1 _
          rw [← h1]
          exact posDigitChar_ne_minus f
      rw [scanNumber]
      rw [if_neg hcm, ← hre, hmid]
      simp [htail, scanExpOpt_boundary t h]

/-- Scanning a primitive accepts the `null` literal. -/
theorem scanPrim_null (t : List Char) :
    scanPrim ('n' :: 'u' :: 'l' :: 'l' :: t) = some t := by
  rw [scanPrim]
  simp [List.take, List.drop]

/-- On a head that starts none of the string/`null`/`true`/`false` forms,
`scanPrim` falls through to the number scanner. -/
theorem scanPrim_not_literal (c : Char) (r : List Char)
    (h1 : ¬ c = '"') (h2 : ¬ c = 'n') (h3 : ¬ c = 't') (h4 : ¬ c = 'f') :
    scanPrim (c :: r) = scanNumber (c :: r) := by
  rw [scanPrim]
  simp [h1, h2, h3, h4]

/-- Leading digits 1–9 start none of the literal forms. -/
theorem posDigitChar_not_literal :
    ∀ g : Fin 9, ¬ posDigitChar g = '"' ∧ ¬ posDigitChar g = 'n'
      ∧ ¬ posDigitChar g = 't' ∧ ¬ posDigitChar g = 'f' := by
  decide

/-- Scanning a primitive accepts any rendered `F32` followed by a number
boundary. -/
theorem scanPrim_renderF32 (f : F32) (t : List Char) (h : numBoundary t = true) :
    scanPrim (renderF32 f ++ t) = some t := by
  cases f with
  | nonfinite =>
    rw [show renderF32 .nonfinite ++ t = 'n' :: 'u' :: 'l' :: 'l' :: t from rfl]
    exact scanPrim_null t
  | finite neg ip frac =>
    cases neg with
    | true =>
      have hsh : renderF32 (.finite true ip frac) ++ t
          = '-' :: (renderUInt ip
              ++ '.' :: ((if frac = [] then ['0'] else frac.map digitChar) ++ t)) := by
        rw [renderF32]
        simp
      rw [hsh, scanPrim_not_literal '-' _ (by decide) (by decide) (by decide) (by decide),
        ← hsh]
      exact scanNumber_renderF32 true ip frac t h
    | false =>
      cases ip with
      | zero =>
        have hsh : renderF32 (.finite false .zero frac) ++ t
            = '0' :: ('.' :: ((if frac = [] then ['0'] else frac.map digitChar) ++ t)) := by
          rw [renderF32, renderUInt]
          simp
        rw [hsh, scanPrim_not_literal '0' _ (by decide) (by decide) (by decide) (by decide),
          ← hsh]
        exact scanNumber_renderF32 false .zero frac t h
      | pos g rr =>
        have hsh : renderF32 (.finite false (.pos g rr) frac) ++ t
            = posDigitChar g :: (rr.map digitChar
                ++ '.' :: ((if frac = [] then ['0'] else frac.map digitChar) ++ t)) := by
          rw [renderF32, renderUInt]
          simp
        obtain ⟨hq, hn, ht, hf⟩ := posDigitChar_not_literal g
        rw [hsh, scanPrim_not_literal (posDigitChar g) _ hq hn ht hf, ← hsh]
        exact scanNumber_renderF32 false (.pos g rr) frac t h

/-- Scanning one member accepts a serialized member followed by a number
boundary. -/
theorem scanMember_ser (kv : String × JVal) (t : List Char)
    (hb : numBoundary t = true) :
    scanMember (serMember kv ++ t) = some t := by
  obtain ⟨k, v⟩ := kv
  have hsh : serMember (k, v) ++ t
      = '"' :: (escapeList k.data ++ '"' :: (':' :: (serJVal v ++ t))) := by
    simp [serMember, serStr]
  rw [hsh, scanMember]
  simp only [if_pos rfl]
  rw [scanBody_escapeList]
  rw [show (some (':' :: (serJVal v ++ t))).bind scanColonValue
      = scanColonValue (':' :: (serJVal v ++ t)) from rfl]
  rw [scanColonValue]
  simp only [if_pos rfl]
  cases v with
  | str s => exact scanPrim_serStr s t
  | num f => exact scanPrim_renderF32 f t hb

/-- A comma is a number boundary. -/
theorem numBoundary_comma (r : List Char) : numBoundary (',' :: r) = true := by
  rw [numBoundary]
  decide

/-- A closing brace is a number boundary. -/
theorem numBoundary_rbrace (r : List Char) : numBoundary ('}' :: r) = true := by
  rw [numBoundary]
  decide

/-- Scanning the member list accepts any nonempty serialized field list with
enough fuel, consuming the closing brace. -/
theorem scanMembers_serFields (fs : List (String × JVal)) :
    ∀ (rest : List Char) (fuel : Nat), fs ≠ [] → fs.length ≤ fuel →
    scanMembers fuel (serFields fs ++ '}' :: rest) = some rest := by
  induction fs with
  | nil => intro rest fuel hne _; exact absurd rfl hne
  | cons kv kvs ih =>
    intro rest fuel _ hf
    cases fuel with
    | zero => simp at hf
    | succ fl =>
      cases kvs with
      | nil =>
        rw [show serFields [kv] = serMember kv from rfl, scanMembers,
          scanMember_ser kv ('}' :: rest) (numBoundary_rbrace rest)]
        rw [show (some ('}' :: rest)).bind (scanMemberSep fl)
            = scanMemberSep fl ('}' :: rest) from rfl]
        rw [scanMemberSep]
        simp
      | cons kv2 kvs2 =>
        have hsh : serFields (kv :: kv2 :: kvs2) ++ '}' :: rest
            = serMember kv ++ ',' :: (serFields (kv2 :: kvs2) ++ '}' :: rest) := by
          rw [show serFields (kv :: kv2 :: kvs2)
              = serMember kv ++ ',' :: serFields (kv2 :: kvs2) from rfl]
          simp
        rw [hsh, scanMembers,
          scanMember_ser kv (',' :: (serFields (kv2 :: kvs2) ++ '}' :: rest))
            (numBoundary_comma _)]
        rw [show (some (',' :: (serFields (kv2 :: kvs2) ++ '}' :: rest))).bind
            (scanMemberSep fl)
            = scanMemberSep fl (',' :: (serFields (kv2 :: kvs2) ++ '}' :: rest)) from rfl]
        rw [scanMemberSep]
        simp only [if_pos rfl]
        apply ih
        · exact List.cons_ne_nil kv2 kvs2
        · simp at hf ⊢
          omega

/-- A nonempty serialized field list starts with a quote. -/
theorem serFields_cons_head (kv : String × JVal) (fs : List (String × JVal)) :
    ∃ tail : List Char, serFields (kv :: fs) = '"' :: tail := by
  cases fs with
  | nil => exact ⟨_, rfl⟩
  | cons a b => exact ⟨_, rfl⟩

/-- A serialized member is nonempty. -/
theorem serMember_length_pos (kv : String × JVal) : 1 ≤ (serMember kv).length := by
  obtain ⟨k, v⟩ := kv
  simp [serMember, serStr]

/-- A serialized field list is at least as long as the field list itself. -/
theorem serFields_length_ge (fs : List (String × JVal)) :
    fs.length ≤ (serFields fs).length := by
  induction fs with
  | nil => simp [serFields]
  | cons kv kvs ih =>
    cases kvs with
    | nil => simpa [serFields] using serMember_length_pos kv
    | cons kv2 kvs2 =>
      rw [show serFields (kv :: kv2 :: kvs2)
          = serMember kv ++ ',' :: serFields (kv2 :: kvs2) from rfl]
      have h1 := serMember_length_pos kv
      simp only [List.length_append, List.length_cons] at *
      omega

/-- Scanning the top level accepts any serialized nonempty object. -/
theorem scanTop_serObj (kv : String × JVal) (fs : List (String × JVal)) :
    scanTop (serObj (kv :: fs)) = some [] := by
  obtain ⟨tail, htail⟩ := serFields_cons_head kv fs
  have hsh : serObj (kv :: fs) = '{' :: ('"' :: (tail ++ ['}'])) := by
    rw [serObj, htail]
    simp
  rw [hsh, scanTop]
  simp only [if_pos rfl, if_neg (by decide : ¬ ('"' : Char) = '}')]
  have hb : ('"' : Char) :: (tail ++ ['}']) = serFields (kv :: fs) ++ '}' :: [] := by
    rw [htail]
    simp
  rw [hb]
  apply scanMembers_serFields
  · exact List.cons_ne_nil kv fs
  · calc (kv :: fs).length ≤ (serFields (kv :: fs)).length := serFields_length_ge _
      _ ≤ (serFields (kv :: fs) ++ '}' :: []).length := by simp

/-- C1: for every input state string, level, extended info and icon set —
including values containing quotes, backslashes, or non-ASCII text in any
field — `format_state_json_with_level` returns a string accepted by the
strict JSON scanner, i.e. a valid JSON text; it never fails.  (The inline
fallback literal is modeled faithfully but is dead code: `serde_json`
serialization of this struct is infallible, so the structured-encoder branch
is always taken.) -/
theorem c1_formatter_output_always_parses_as_json (state : String)
    (icons : ResolvedIcons) (extended : Option ExtendedStatusInfo)
    (level : Option F32) :
    jsonValid (format_state_json_with_level state icons extended level) = true := by
  have hgoal : scanTop (serObj (waybarFields
      (buildWaybarStatus state icons extended level))) = some [] := by
    have hw : waybarFields (buildWaybarStatus state icons extended level)
        = ("text", JVal.str (buildWaybarStatus state icons extended level).text)
          :: ([("alt", JVal.str (buildWaybarStatus state icons extended level).alt),
              ("class", JVal.str (buildWaybarStatus state icons extended level).cls),
              ("tooltip", JVal.str (buildWaybarStatus state icons extended level).tooltip)]
            ++ (match (buildWaybarStatus state icons extended level).level with
                | some f => [("level", JVal.num f)] | none => [])
            ++ (match (buildWaybarStatus state icons extended level).model with
                | some m => [("model", JVal.str m)] | none => [])
            ++ (match (buildWaybarStatus state icons extended level).device with
                | some d => [("device", JVal.str d)] | none => [])
            ++ (match (buildWaybarStatus state icons extended level).backend with
                | some b => [("backend", JVal.str b)] | none => [])) := by
      rw [waybarFields]
      simp
    rw [hw]
    exact scanTop_serObj _ _
  simp only [jsonValid, format_state_json_with_level, serdeJsonToString]
  simpa using hgoal

/-- C5: in the formatted status record, `level` is present iff the state is
`recording` and a level was supplied, and the `model`/`device`/`backend`
fields are present as a group iff extended info was supplied, regardless of
state. -/
theorem c5_level_and_extended_presence (state : String) (icons : ResolvedIcons)
    (extended : Option ExtendedStatusInfo) (level : Option F32) :
    (("level" ∈ (waybarFields (buildWaybarStatus state icons extended level)).map Prod.fst)
        ↔ (state = "recording" ∧ level.isSome = true))
    ∧ (("model" ∈ (waybarFields (buildWaybarStatus state icons extended level)).map Prod.fst)
        ↔ extended.isSome = true)
    ∧ (("device" ∈ (waybarFields (buildWaybarStatus state icons extended level)).map Prod.fst)
        ↔ extended.isSome = true)
    ∧ (("backend" ∈ (waybarFields (buildWaybarStatus state icons extended level)).map Prod.fst)
        ↔ extended.isSome = true) := by
  by_cases hrec : state = "recording"
  · subst hrec
    cases extended <;> cases level <;>
      simp [waybarFields, buildWaybarStatus]
  · cases extended <;> cases level <;>
      simp [waybarFields, buildWaybarStatus, hrec]

/-- C6: for every input state string — including unknown state names — the
formatted record has exactly the four base fields `text`, `alt`, `class`,
`tooltip` in that order, followed only by the conditional fields; `class` and
`alt` both echo the state name verbatim; and an unrecognized state is not
rejected but falls back to the idle icon with the generic tooltip. -/
theorem c6_base_fields_order_and_unknown_state (state : String)
    (icons : ResolvedIcons) (extended : Option ExtendedStatusInfo)
    (level : Option F32) :
    ((waybarFields (buildWaybarStatus state icons extended level)).map Prod.fst
        = ["text", "alt", "class", "tooltip"]
          ++ (if state = "recording" ∧ level.isSome = true then ["level"] else [])
          ++ (if extended.isSome = true then ["model", "device", "backend"] else []))
    ∧ (buildWaybarStatus state icons extended level).alt = state
    ∧ (buildWaybarStatus state icons extended level).cls = state
    ∧ (state ∉ (["idle", "recording", "transcribing", "stopped"] : List String) →
        (buildWaybarStatus state icons extended level).text = icons.idle
          ∧ stateTextTooltip state icons = (icons.idle, "Unknown state")) := by
  refine ⟨?_, ?_, ?_, ?_⟩
  · by_cases hrec : state = "recording"
    · subst hrec
      cases extended <;> cases level <;>
        simp [waybarFields, buildWaybarStatus]
    · cases extended <;> cases level <;>
        simp [waybarFields, buildWaybarStatus, hrec]
  · cases extended <;> simp [buildWaybarStatus]
  · cases extended <;> simp [buildWaybarStatus]
  · intro hunk
    simp only [List.mem_cons, List.mem_singleton, not_or] at hunk
    have hi := hunk.1
    have hr := hunk.2.1
    have htr := hunk.2.2.1
    have hs := hunk.2.2.2.1
    have htt : stateTextTooltip state icons = (icons.idle, "Unknown state") := by
      rw [stateTextTooltip, if_neg hr, if_neg htr, if_neg hi, if_neg hs]
    refine ⟨?_, htt⟩
    cases extended <;> simp [buildWaybarStatus, htt]

/-- Witness for the unknown-state implication of C6 at a concrete input. -/
theorem c6_base_fields_order_and_unknown_state_witness :
    ("outputting" ∉ (["idle", "recording", "transcribing", "stopped"] : List String))
    ∧ (buildWaybarStatus "outputting" ⟨"I", "R", "T", "S"⟩ none none).text = "I" := by
  refine ⟨by decide, ?_⟩
  exact (c6_base_fields_order_and_unknown_state "outputting" ⟨"I", "R", "T", "S"⟩
    none none).2.2.2 (by decide) |>.1

/- ===================== dispatcher lemmas ===================== -/

/-- Mailbox write for a requested profile override (after validation). -/
def profileWrites (opts : RecordOpts) : List Effect :=
  match opts.profile with
  | some p => [.writeFile "profile_override" p]
  | none => []

/-- Output-mode mailbox writes never contain a signal. -/
theorem signal_notin_outputModeWrites (opts : RecordOpts) (s : Sig) :
    Effect.signal s ∉ outputModeWrites opts := by
  cases h : opts.outputMode <;> simp [outputModeWrites, h]

/-- Model mailbox writes never contain a signal. -/
theorem signal_notin_modelWrites (opts : RecordOpts) (s : Sig) :
    Effect.signal s ∉ modelWrites opts := by
  cases h : opts.model <;> simp [modelWrites, h]

/-- Profile mailbox writes never contain a signal. -/
theorem signal_notin_profileWrites (opts : RecordOpts) (s : Sig) :
    Effect.signal s ∉ profileWrites opts := by
  cases h : opts.profile <;> simp [profileWrites, h]

/-- Profile error prints never contain a signal. -/
theorem signal_notin_profileErrPrints (profiles : List String) (p : String) (s : Sig) :
    Effect.signal s ∉ profileErrPrints profiles p := by
  rw [profileErrPrints]
  split <;> simp

/-- Output-mode mailbox writes never write the profile mailbox. -/
theorem profileFile_notin_outputModeWrites (opts : RecordOpts) (c : String) :
    Effect.writeFile "profile_override" c ∉ outputModeWrites opts := by
  cases h : opts.outputMode <;> simp [outputModeWrites, h]

/-- Model mailbox writes never write the profile mailbox. -/
theorem profileFile_notin_modelWrites (opts : RecordOpts) (c : String) :
    Effect.writeFile "profile_override" c ∉ modelWrites opts := by
  cases h : opts.model <;> simp [modelWrites, h]

/-- Profile error prints never write any file. -/
theorem writeFile_notin_profileErrPrints (profiles : List String) (p n c : String) :
    Effect.writeFile n c ∉ profileErrPrints profiles p := by
  rw [profileErrPrints]
  split <;> simp

/-- C9: when the PID-lock file exists and parses but the liveness probe shows
the process does not exist, the dispatcher deletes the stale lock file,
reports not-running and exits 1, sending no signal and writing no mailbox
file. -/
theorem c9_stale_lock_cleanup (env : DispatchEnv) (action : RecordAction)
    (pidStr : String) (pid : Int)
    (hf : env.pidFile = some pidStr) (hp : parseI32 (strTrim pidStr) = some pid)
    (hd : env.pidLive pid = false) :
    send_record_command env action
      = ([.removeFile "pid",
          .printErr "Error: Voxtype daemon is not running (stale PID file removed).",
          .printErr "Start it with: voxtype daemon"], .exit1)
    ∧ (∀ s : Sig, Effect.signal s ∉ (send_record_command env action).1)
    ∧ (∀ n c : String, Effect.writeFile n c ∉ (send_record_command env action).1) := by
  have heq : send_record_command env action
      = ([.removeFile "pid",
          .printErr "Error: Voxtype daemon is not running (stale PID file removed).",
          .printErr "Start it with: voxtype daemon"], .exit1) := by
    simp only [send_record_command, hf, hp]
    simp [hd]
  refine ⟨heq, ?_, ?_⟩
  · intro s
    rw [heq]
    simp
  · intro n c
    rw [heq]
    simp

/-- Witness for C9 at a concrete stale-lock environment. -/
theorem c9_stale_lock_cleanup_witness :
    (some "42" : Option String) = some "42"
    ∧ parseI32 (strTrim "42") = some 42
    ∧ send_record_command ⟨some "42", fun _ => false, none, false, []⟩ RecordAction.cancel
      = ([.removeFile "pid",
          .printErr "Error: Voxtype daemon is not running (stale PID file removed).",
          .printErr "Start it with: voxtype daemon"], .exit1) :=
  ⟨rfl, by decide,
    (c9_stale_lock_cleanup ⟨some "42", fun _ => false, none, false, []⟩
      RecordAction.cancel "42" 42 rfl (by decide) rfl).1⟩

/-- C2 counterexample: with a live daemon, an unknown profile and an
output-mode override, the dispatcher exits 1 but has already written the
output-mode mailbox file, contradicting "without writing any mailbox file". -/
theorem c2_counterexample_mailbox_written_before_validation :
    (([] : List String).contains "foo" = false)
    ∧ (send_record_command ⟨some "1", fun _ => true, none, false, []⟩
        (.start ⟨some .clipboard, none, none, some "foo"⟩)).2 = .exit1
    ∧ Effect.writeFile "output_mode_override" "clipboard"
        ∈ (send_record_command ⟨some "1", fun _ => true, none, false, []⟩
            (.start ⟨some .clipboard, none, none, some "foo"⟩)).1 := by
  refine ⟨rfl, ?_, ?_⟩ <;> decide

/-- C2 (amended): with a live daemon, a `record start|stop|toggle` carrying a
profile override whose name is not configured exits 1 after printing the
configured profile list (or guidance), sends no signal and writes no
profile-override mailbox file; however, requested output-mode and model
override mailbox files are written before the profile validation. -/
theorem c2_amended_profile_validation (env : DispatchEnv) (opts : RecordOpts)
    (action : RecordAction) (p : String) (pidStr : String) (pid : Int)
    (hact : action = .start opts ∨ action = .stop opts ∨ action = .toggle opts)
    (hprof : opts.profile = some p)
    (hbad : env.profiles.contains p = false)
    (hf : env.pidFile = some pidStr) (hp : parseI32 (strTrim pidStr) = some pid)
    (hl : env.pidLive pid = true) :
    send_record_command env action
      = (outputModeWrites opts ++ modelWrites opts
          ++ profileErrPrints env.profiles p, .exit1)
    ∧ (∀ s : Sig, Effect.signal s ∉ (send_record_command env action).1)
    ∧ (∀ c : String,
        Effect.writeFile "profile_override" c ∉ (send_record_command env action).1) := by
  have heq : send_record_command env action
      = (outputModeWrites opts ++ modelWrites opts
          ++ profileErrPrints env.profiles p, .exit1) := by
    have hmem : p ∉ env.profiles := by simpa using hbad
    rcases hact with h | h | h <;> subst h <;>
      (simp only [send_record_command, hf, hp, hl]
       simp [RecordAction.optsD, hprof, hbad, hmem])
  refine ⟨heq, ?_, ?_⟩
  · intro s
    rw [heq]
    simp only [List.mem_append]
    push_neg
    exact ⟨⟨signal_notin_outputModeWrites opts s, signal_notin_modelWrites opts s⟩,
      signal_notin_profileErrPrints env.profiles p s⟩
  · intro c
    rw [heq]
    simp only [List.mem_append]
    push_neg
    exact ⟨⟨profileFile_notin_outputModeWrites opts c, profileFile_notin_modelWrites opts c⟩,
      writeFile_notin_profileErrPrints env.profiles p "profile_override" c⟩

/-- Witness for C2 (amended) at a concrete environment. -/
theorem c2_amended_profile_validation_witness :
    (([] : List String).contains "foo" = false)
    ∧ parseI32 (strTrim "1") = some 1
    ∧ send_record_command ⟨some "1", fun _ => true, none, false, []⟩
        (.start ⟨some .clipboard, none, none, some "foo"⟩)
      = (outputModeWrites ⟨some .clipboard, none, none, some "foo"⟩
          ++ modelWrites ⟨some .clipboard, none, none, some "foo"⟩
          ++ profileErrPrints [] "foo", .exit1) :=
  ⟨rfl, by decide,
    (c2_amended_profile_validation ⟨some "1", fun _ => true, none, false, []⟩
      ⟨some .clipboard, none, none, some "foo"⟩ _ "foo" "1" 1
      (Or.inl rfl) rfl rfl rfl (by decide) rfl).1⟩

/-- C3 counterexample: with the persisted state text `"recording\n"` — which
is not exactly `recording` — toggle dispatch still sends the stop signal,
because the dispatcher compares the whitespace-trimmed content. -/
theorem c3_counterexample_trimmed_comparison :
    send_record_command ⟨some "1", fun _ => true, some "recording\n", true, []⟩
        (.toggle ⟨none, none, none, none⟩)
      = ([.signal .sigusr2], .ok)
    ∧ ("recording\n" : String) ≠ "recording" := by
  refine ⟨?_, ?_⟩ <;> decide

/-- C3 (amended): with a live daemon, a configured state-file path, and no
failing profile override, toggle sends the stop signal iff the
whitespace-trimmed persisted state text is exactly `recording`, and sends the
start signal otherwise — including when the state file is missing or empty
(an unreadable file defaults to `idle`). -/
theorem c3_amended_toggle_on_trimmed_state (env : DispatchEnv) (opts : RecordOpts)
    (pidStr : String) (pid : Int)
    (hf : env.pidFile = some pidStr) (hp : parseI32 (strTrim pidStr) = some pid)
    (hl : env.pidLive pid = true)
    (hcfg : env.stateFileConfigured = true)
    (hprof : opts.profile = none
      ∨ ∃ q, opts.profile = some q ∧ env.profiles.contains q = true) :
    send_record_command env (.toggle opts)
      = (outputModeWrites opts ++ modelWrites opts ++ profileWrites opts
          ++ [.signal (if strTrim (env.stateFile.getD "idle") = "recording"
              then Sig.sigusr2 else Sig.sigusr1)], .ok)
    ∧ (Effect.signal Sig.sigusr2 ∈ (send_record_command env (.toggle opts)).1
        ↔ strTrim (env.stateFile.getD "idle") = "recording")
    ∧ (env.stateFile = none →
        Effect.signal Sig.sigusr1 ∈ (send_record_command env (.toggle opts)).1) := by
  have heq : send_record_command env (.toggle opts)
      = (outputModeWrites opts ++ modelWrites opts ++ profileWrites opts
          ++ [.signal (if strTrim (env.stateFile.getD "idle") = "recording"
              then Sig.sigusr2 else Sig.sigusr1)], .ok) := by
    rcases hprof with h0 | ⟨q, hq, hmemq⟩
    · simp only [send_record_command, hf, hp, hl]
      simp [RecordAction.optsD, h0, signalPhase, hcfg, profileWrites]
    · have hmem : q ∈ env.profiles := by simpa using hmemq
      simp only [send_record_command, hf, hp, hl]
      simp [RecordAction.optsD, hq, hmem, signalPhase, hcfg, profileWrites, List.append_assoc]
  refine ⟨heq, ?_, ?_⟩
  · rw [heq]
    simp only [List.mem_append]
    by_cases hrec : strTrim (env.stateFile.getD "idle") = "recording"
    · simp [hrec]
    · simp [hrec, signal_notin_outputModeWrites opts, signal_notin_modelWrites opts,
        signal_notin_profileWrites opts]
  · intro h0
    rw [heq, h0]
    have : strTrim (("idle" : String)) = "idle" := by decide
    simp [Option.getD, this]

/-- Witness for C3 (amended) at a concrete environment with a missing state
file: start is sent. -/
theorem c3_amended_toggle_on_trimmed_state_witness :
    parseI32 (strTrim "1") = some 1
    ∧ send_record_command ⟨some "1", fun _ => true, none, true, []⟩
        (.toggle ⟨none, none, none, none⟩)
      = ([.signal .sigusr1], .ok) :=
  ⟨by decide, by
    have h := (c3_amended_toggle_on_trimmed_state
      ⟨some "1", fun _ => true, none, true, []⟩ ⟨none, none, none, none⟩ "1" 1
      rfl (by decide) rfl rfl (Or.inl rfl)).1
    rw [h]
    decide⟩

/- ===================== status snapshot claims ===================== -/

/-- The trimming of `"stopped"` is itself. -/
theorem strTrim_stopped : strTrim "stopped" = "stopped" := by decide

/-- C4 counterexample: with liveness confirmed but the state file unreadable,
the one-shot snapshot reports `stopped` — a consumer-invented value the
daemon never wrote — contradicting "never a consumer-invented `stopped`
when liveness is confirmed". -/
theorem c4_counterexample_stopped_despite_liveness :
    status_snapshot_state true none = "stopped"
    ∧ (none : Option String).isNone = true := by
  refine ⟨by decide, rfl⟩

/-- C4 (amended): the snapshot state is `stopped` when the liveness check
fails — regardless of file contents — or when the state file cannot be read;
when liveness is confirmed and the file is readable, the reported state is
the trimmed file content. -/
theorem c4_amended_snapshot_state (live : Bool) (fileRead : Option String) :
    (live = false → status_snapshot_state live fileRead = "stopped")
    ∧ (∀ s, fileRead = some s → live = true →
        status_snapshot_state live fileRead = strTrim s)
    ∧ (live = true → fileRead = none →
        status_snapshot_state live fileRead = "stopped") := by
  refine ⟨?_, ?_, ?_⟩
  · intro h
    subst h
    rw [status_snapshot_state]
    simpa using strTrim_stopped
  · intro s hs hl
    subst hs
    subst hl
    rw [status_snapshot_state]
    simp [strTrim]
  · intro hl h0
    subst hl
    subst h0
    rw [status_snapshot_state]
    simpa using strTrim_stopped

/-- Witness for C4 (amended): with a live daemon and a readable file the
content is reported verbatim (it is already trimmed). -/
theorem c4_amended_snapshot_state_witness :
    status_snapshot_state true (some "recording") = strTrim "recording"
    ∧ strTrim "recording" = "recording" :=
  ⟨(c4_amended_snapshot_state true (some "recording")).2.1 "recording" rfl rfl,
   by decide⟩

/- ===================== follow-mode claims ===================== -/

/-- C8 counterexample: on a watch-event wake with the liveness probe failing
and the previously reported state not `stopped`, no synthetic stop
transition is emitted — the event branch never consults liveness,
contradicting "on every wake ... the liveness check is re-run ... exactly
one synthetic stop transition is emitted". -/
theorem c8_counterexample_event_wake_no_liveness_check :
    follow_step true ⟨some "idle", none, true, false⟩ ⟨"idle", none⟩ .event
      = ([], ⟨"idle", none⟩, .cont)
    ∧ (⟨some "idle", none, true, false⟩ : WakeEnv).live = false
    ∧ ("idle" : String) ≠ "stopped" := by
  refine ⟨by decide, rfl, by decide⟩

/-- C8 (amended): watch-event wakes re-read the state and level files but do
not consult liveness (the step is independent of the liveness bit); timeout
wakes do not re-read the state file (the step is independent of the
state-read result) but re-run the existence/liveness check, and when that
check fails with the last reported state not already `stopped`, exactly one
synthetic stop record is emitted and the tracked state becomes `stopped`;
once the last reported state is `stopped`, a timeout wake emits nothing. -/
theorem c8_amended_follow_wake_behaviour (isJson : Bool) (env : WakeEnv)
    (st : FollowSt) :
    (∀ b : Bool,
        follow_step isJson ⟨env.stateRead, env.levelRead, env.pathExists, b⟩ st .event
          = follow_step isJson ⟨env.stateRead, env.levelRead, env.pathExists, true⟩ st .event)
    ∧ (∀ sr : Option String,
        follow_step isJson ⟨sr, env.levelRead, env.pathExists, env.live⟩ st .timeout
          = follow_step isJson ⟨none, env.levelRead, env.pathExists, env.live⟩ st .timeout)
    ∧ ((env.pathExists = false ∨ env.live = false) → st.lastState ≠ "stopped" →
        ((follow_step isJson env st .timeout).1.filter (fun e => e.1 == "stopped")
            = [("stopped", none)]
          ∧ (follow_step isJson env st .timeout).2.1.lastState = "stopped"))
    ∧ (st.lastState = "stopped" →
        follow_step isJson env st .timeout = ([], st, .cont)) := by
  refine ⟨?_, ?_, ?_, ?_⟩
  · intro b
    rfl
  · intro sr
    rfl
  · intro hdown hnst
    have hcond : (env.pathExists = false ∨ env.live = false) = True := by
      simp [hdown]
    by_cases hrec : st.lastState = "recording" ∧ isJson = true
    · by_cases hlev : env.levelRead ≠ st.lastLevel
      · have hne : st.lastState ≠ "stopped" := hnst
        simp only [follow_step, if_pos hrec, if_pos hlev]
        simp [hcond, hnst, hrec.1]
      · simp only [follow_step, if_pos hrec, if_neg hlev]
        simp [hcond, hnst]
    · simp only [follow_step, if_neg hrec]
      simp [hcond, hnst]
  · intro hstop
    have hrec : ¬ (st.lastState = "recording" ∧ isJson = true) := by
      intro h
      rw [hstop] at h
      exact absurd h.1 (by decide)
    simp only [follow_step, if_neg hrec]
    simp [hstop]

/-- Witness for C8 (amended) at a concrete wake environment. -/
theorem c8_amended_follow_wake_behaviour_witness :
    ((false = false ∨ false = false) ∧ ("idle" : String) ≠ "stopped")
    ∧ (follow_step true ⟨some "x", none, false, false⟩ ⟨"idle", none⟩
        .timeout).1.filter (fun e => e.1 == "stopped") = [("stopped", none)] :=
  ⟨⟨Or.inl rfl, by decide⟩,
    ((c8_amended_follow_wake_behaviour true ⟨some "x", none, false, false⟩
      ⟨"idle", none⟩).2.2.1 (Or.inl rfl) (by decide)).1⟩

/- ===================== status bus claims ===================== -/

/-- Fan-out delivery membership: a line reaches exactly the consumers whose
receivers are alive. -/
theorem mem_fanOutDeliver (line : String) (alive : List Bool) :
    ∀ (i j : Nat),
    (BusEvent.deliver j line ∈ fanOutDeliver i alive line)
      ↔ (∃ k, alive.get? k = some true ∧ j = i + k) := by
  induction alive with
  | nil => intro i j; simp [fanOutDeliver]
  | cons a rest ih =>
    intro i j
    cases a with
    | true =>
      rw [show fanOutDeliver i (true :: rest) line
          = .deliver i line :: fanOutDeliver (i + 1) rest line from rfl]
      rw [List.mem_cons]
      constructor
      · rintro (he | hm)
        · injection he with hj _
          exact ⟨0, by simp, by omega⟩
        · obtain ⟨k, hk, hj⟩ := (ih (i + 1) j).mp hm
          exact ⟨k + 1, by simpa using hk, by omega⟩
      · rintro ⟨k, hk, hj⟩
        cases k with
        | zero =>
          left
          simp only [Nat.add_zero] at hj
          rw [hj]
        | succ k2 =>
          right
          exact (ih (i + 1) j).mpr ⟨k2, by simpa using hk, by omega⟩
    | false =>
      rw [show fanOutDeliver i (false :: rest) line
          = fanOutDeliver (i + 1) rest line from rfl]
      constructor
      · intro hm
        obtain ⟨k, hk, hj⟩ := (ih (i + 1) j).mp hm
        exact ⟨k + 1, by simpa using hk, by omega⟩
      · rintro ⟨k, hk, hj⟩
        cases k with
        | zero => simp at hk
        | succ k2 =>
          exact (ih (i + 1) j).mpr ⟨k2, by simpa using hk, by omega⟩

/-- When every fan-out during the line loop still has an alive consumer, the
loop completes and reports success. -/
theorem busProcessLines_complete (aliveAt : Nat → List Bool) (ls : List String) :
    ∀ k, (∀ i, i < ls.length → ((aliveAt (k + i)).any (fun a => a)) = true) →
    (busProcessLines aliveAt k ls).2 = true := by
  induction ls with
  | nil => intro k _; rfl
  | cons l ls2 ih =>
    intro k hall
    have h0 : ((aliveAt k).any (fun a => a)) = true := by
      simpa using hall 0 (by simp)
    rw [busProcessLines]
    simp only [fan_out, h0, if_pos rfl]
    have hrest : (busProcessLines aliveAt (k + 1) ls2).2 = true := by
      apply ih
      intro i hi
      have := hall (i + 1) (by simpa using Nat.succ_lt_succ hi)
      simpa [Nat.add_assoc, Nat.add_comm 1 i] using this
    simp [hrest]

/-- C7: whenever the streamed subprocess terminates and at least one consumer
is still connected (and the bus did not already shut down mid-stream), the
iteration's events are exactly the normal-line deliveries, followed by one
fan-out of the synthetic `stopped` line to precisely the live consumers,
followed by a 2-second sleep before the loop respawns; the synthetic line is
fanned out exactly once. -/
theorem c7_single_synthetic_stopped_line (ls : List String)
    (aliveAt : Nat → List Bool)
    (hall : ∀ i, i < ls.length → ((aliveAt i).any (fun a => a)) = true)
    (hlive : ((aliveAt ls.length).any (fun a => a)) = true) :
    run_bus_iteration (.streamed ls) aliveAt
      = ((busProcessLines aliveAt 0 ls).1
          ++ fanOutDeliver 0 (aliveAt ls.length) stoppedLine
          ++ [.sleepSecs 2], .continueLoop)
    ∧ (∀ j, BusEvent.deliver j stoppedLine
          ∈ fanOutDeliver 0 (aliveAt ls.length) stoppedLine
        ↔ (aliveAt ls.length).get? j = some true) := by
  constructor
  · have hok : (busProcessLines aliveAt 0 ls).2 = true := by
      apply busProcessLines_complete
      intro i hi
      simpa using hall i hi
    rw [run_bus_iteration]
    simp only [hok, if_pos rfl, fan_out, hlive]
    simp
  · intro j
    rw [mem_fanOutDeliver]
    constructor
    · rintro ⟨k, hk, hj⟩
      simpa [hj] using hk
    · intro hj
      exact ⟨j, hj, by omega⟩

/-- Witness for C7 at a concrete stream and liveness assignment. -/
theorem c7_single_synthetic_stopped_line_witness :
    run_bus_iteration (.streamed ["a"]) (fun _ => [true, false])
      = ((busProcessLines (fun _ => [true, false]) 0 ["a"]).1
          ++ fanOutDeliver 0 [true, false] stoppedLine
          ++ [.sleepSecs 2], .continueLoop) :=
  (c7_single_synthetic_stopped_line ["a"] (fun _ => [true, false])
    (fun _ _ => rfl) rfl).1

/-- C10: fan-out delivers a copy of the line to each channel with a live
receiver and returns true iff at least one receiver is alive; it returns
false for zero channels or when all receivers are disconnected, and a false
return makes the bus iteration shut down immediately. -/
theorem c10_fan_out_properties (alive : List Bool) (line : String) :
    ((fan_out alive line).2 = true ↔ true ∈ alive)
    ∧ (∀ j, BusEvent.deliver j line ∈ (fan_out alive line).1
        ↔ alive.get? j = some true)
    ∧ (alive = [] → (fan_out alive line).2 = false)
    ∧ ((∀ b ∈ alive, b = false) → (fan_out alive line).2 = false)
    ∧ (∀ (l : String) (ls : List String) (aliveAt : Nat → List Bool),
        (fan_out (aliveAt 0) l).2 = false →
        run_bus_iteration (.streamed (l :: ls)) aliveAt
          = ((fan_out (aliveAt 0) l).1, .shutdown)) := by
  refine ⟨?_, ?_, ?_, ?_, ?_⟩
  · simp only [fan_out]
    rw [List.any_eq_true]
    constructor
    · rintro ⟨x, hx, hxt⟩
      rw [← show x = true from by simpa using hxt]
      exact hx
    · intro ht
      exact ⟨true, ht, rfl⟩
  · intro j
    rw [show (fan_out alive line).1 = fanOutDeliver 0 alive line from rfl,
      mem_fanOutDeliver]
    constructor
    · rintro ⟨k, hk, hj⟩
      simpa [hj] using hk
    · intro hj
      exact ⟨j, hj, by omega⟩
  · intro h
    subst h
    rfl
  · intro h
    simp only [fan_out]
    rw [List.any_eq_false]
    intro x hx
    simpa using h x hx
  · intro l ls aliveAt hdead
    have hbpl : busProcessLines aliveAt 0 (l :: ls) = ((fan_out (aliveAt 0) l).1, false) := by
      rw [busProcessLines]
      simp [hdead]
    rw [run_bus_iteration]
    simp [hbpl]

/-- Witness for C10 at a concrete all-disconnected channel list. -/
theorem c10_fan_out_properties_witness :
    (fan_out ((fun _ : Nat => [false, false]) 0) "x").2 = false
    ∧ run_bus_iteration (.streamed ["x"]) (fun _ => [false, false])
      = ((fan_out ((fun _ : Nat => [false, false]) 0) "x").1, .shutdown) :=
  ⟨rfl,
    (c10_fan_out_properties [false, false] "x").2.2.2.2 "x" []
      (fun _ => [false, false]) rfl⟩

/-- The formatter's output is exactly the serialization of the member list of
the built status record (the fallback branch is dead code), so statements
about `waybarFields` key presence and order are statements about the emitted
JSON text. -/
theorem format_state_json_with_level_eq_serialization (state : String)
    (icons : ResolvedIcons) (extended : Option ExtendedStatusInfo)
    (level : Option F32) :
    format_state_json_with_level state icons extended level
      = String.mk (serObj (waybarFields (buildWaybarStatus state icons extended level))) := rfl
